import Mathlib

/-!
Shallow embedding of the PhotoGrid component of moment-grid-creator.

The component keeps a React state `images` of nine slots, created by
`Array.from({length: 9}, (_, i) => ({id: i, file: null, preview: null}))`,
and operations `handleFileSelect`, `removeImage`, `resetGrid`, `downloadGrid`.

Modelling choices:
* Browser strings (media types) are modelled as lists of characters, so the
  test `file.type.startsWith("image/")` becomes prefix testing on character
  lists, which is the semantics of `startsWith` on strings.
* A `File` carries its declared media type and the intrinsic pixel dimensions
  of the image it encodes; decoding the preview URL of a slot (`new Image()`
  followed by `onload`) yields exactly those dimensions.
* `URL.createObjectURL` is modelled as drawing a fresh handle from a counter
  `nextHandle`; `URL.revokeObjectURL h` appends `h` to a revocation log
  `revoked`. A handle is live when it has been created and never revoked.
* `downloadGrid` is modelled up to its pure content: either it aborts before
  any canvas work (`nothingToRender`), or it produces the list of per-cell
  draw commands (position, cover-fit scale, offsets, clip rectangle) that the
  canvas receives.
-/

structure File where
  type : List Char
  width : ℚ
  height : ℚ
deriving DecidableEq

structure ImageSlot where
  id : Nat
  file : Option File
  preview : Option Nat
deriving DecidableEq

structure GridState where
  images : List ImageSlot
  nextHandle : Nat
  revoked : List Nat
deriving DecidableEq

/-- The initial nine empty slots, ids 0..8. -/
def initImages : List ImageSlot :=
  (List.range 9).map (fun i => { id := i, file := none, preview := none })

def initState : GridState := { images := initImages, nextHandle := 0, revoked := [] }

/-- `file.type.startsWith("image/")`. -/
def isImage (f : File) : Bool := List.isPrefixOf "image/".toList f.type

/-- A handle that has been created and never revoked. -/
def handleLive (s : GridState) (h : Nat) : Prop := h < s.nextHandle ∧ h ∉ s.revoked

def slotFile (s : GridState) (i : Nat) : Option File := (s.images[i]?).bind (fun sl => sl.file)

def slotPreview (s : GridState) (i : Nat) : Option Nat := (s.images[i]?).bind (fun sl => sl.preview)

/-- The preview handles currently referenced by slots, in slot order. -/
def slotHandles (s : GridState) : List Nat := s.images.filterMap (fun sl => sl.preview)

/-- Outcome of `handleFileSelect`: whether it returned silently, showed the
format-error toast, the grid-full toast, or the success toast (with the
reported count). -/
inductive InsertResult where
  | silentNoop
  | invalidInput
  | capacityExceeded
  | success (count : Nat)
deriving DecidableEq

/-- The `imageFiles.forEach((file, index) => { const targetIndex = startIndex + index;
if (targetIndex < 9) { const preview = URL.createObjectURL(file);
newImages[targetIndex] = { id: targetIndex, file, preview }; } })` loop:
returns the updated slot list and the handle counter. -/
def placeLoop : List File → List ImageSlot → Nat → Nat → List ImageSlot × Nat
  | [], imgs, nextH, _ => (imgs, nextH)
  | f :: rest, imgs, nextH, tIdx =>
    if tIdx < 9 then
      placeLoop rest
        (imgs.set tIdx { id := tIdx, file := some f, preview := some nextH })
        (nextH + 1) (tIdx + 1)
    else
      placeLoop rest imgs nextH (tIdx + 1)

/-- `slotId !== undefined ? slotId : images.findIndex(img => img.file === null)`,
with JavaScript's `-1` for "not found". -/
def startIndexOf (imgs : List ImageSlot) (slotId : Option Nat) : Int :=
  match slotId with
  | some i => (i : Int)
  | none =>
    match imgs.findIdx? (fun img => img.file.isNone) with
    | some i => (i : Int)
    | none => -1

/-- Embedding of `handleFileSelect(files, slotId?)`. -/
def handleFileSelect (s : GridState) (files : List File) (slotId : Option Nat) :
    GridState × InsertResult :=
  if files.isEmpty then (s, .silentNoop)
  else
    let imageFiles := files.filter isImage
    if imageFiles.isEmpty then (s, .invalidInput)
    else
      let startIndex := startIndexOf s.images slotId
      if startIndex = -1 then (s, .capacityExceeded)
      else
        let start := startIndex.toNat
        let placed := placeLoop imageFiles s.images s.nextHandle start
        ({ images := placed.1, nextHandle := placed.2, revoked := s.revoked },
         .success (min imageFiles.length (9 - start)))

/-- Embedding of `removeImage(slotId)`: revoke the slot's preview if present,
then reset the slot to `{ id: slotId, file: null, preview: null }`. -/
def removeImage (s : GridState) (slotId : Nat) : GridState :=
  match s.images[slotId]? with
  | none => s
  | some slot =>
    { images := s.images.set slotId { id := slotId, file := none, preview := none },
      nextHandle := s.nextHandle,
      revoked :=
        match slot.preview with
        | some h => s.revoked ++ [h]
        | none => s.revoked }

/-- The "grid reset" toast emitted by `resetGrid`. -/
inductive ResetResult where
  | gridReset
deriving DecidableEq

/-- Embedding of `resetGrid()`: revoke every slot's preview handle in slot
order, reinitialize the nine slots, toast "grid reset". -/
def resetGrid (s : GridState) : GridState × ResetResult :=
  ({ images := initImages, nextHandle := s.nextHandle,
     revoked := s.revoked ++ slotHandles s },
   .gridReset)

/-- One `ctx.drawImage` command of `downloadGrid`, together with the clip
rectangle `ctx.rect(x, y, cellSize, cellSize)` installed around it. -/
structure CellDraw where
  index : Nat
  x : ℚ
  y : ℚ
  drawWidth : ℚ
  drawHeight : ℚ
  offsetX : ℚ
  offsetY : ℚ
  clipX : ℚ
  clipY : ℚ
  clipW : ℚ
  clipH : ℚ
deriving DecidableEq

def cellSize : ℚ := 300

def gap : ℚ := 10

/-- The per-cell geometry computed inside `image.onload` of `downloadGrid`:
row/column placement and the object-fit cover transform. -/
def drawCell (index : Nat) (f : File) : CellDraw :=
  let row := index / 3
  let col := index % 3
  let x : ℚ := col * (cellSize + gap)
  let y : ℚ := row * (cellSize + gap)
  let aspect : ℚ := f.width / f.height
  if aspect > 1 then
    { index := index, x := x, y := y,
      drawWidth := cellSize * aspect, drawHeight := cellSize,
      offsetX := -(cellSize * aspect - cellSize) / 2, offsetY := 0,
      clipX := x, clipY := y, clipW := cellSize, clipH := cellSize }
  else
    { index := index, x := x, y := y,
      drawWidth := cellSize, drawHeight := cellSize / aspect,
      offsetX := 0, offsetY := -(cellSize / aspect - cellSize) / 2,
      clipX := x, clipY := y, clipW := cellSize, clipH := cellSize }

/-- The draw commands issued for the slot list, one per slot with a preview,
in index order (the slot's decoded image is its stored file). -/
def renderCellsAux : Nat → List ImageSlot → List CellDraw
  | _, [] => []
  | i, slot :: rest =>
    match slot.preview, slot.file with
    | some _, some f => drawCell i f :: renderCellsAux (i + 1) rest
    | _, _ => renderCellsAux (i + 1) rest

def renderCells (imgs : List ImageSlot) : List CellDraw := renderCellsAux 0 imgs

/-- Outcome of `downloadGrid`: abort with the "no images" toast before any
canvas work, or perform the canvas draws described by the cell list. -/
inductive RenderResult where
  | nothingToRender
  | rendered (cells : List CellDraw)
deriving DecidableEq

/-- Embedding of the pure content of `downloadGrid()`:
`filledImages = images.filter(img => img.preview)`; abort if none, else draw. -/
def renderGrid (s : GridState) : RenderResult :=
  let filledImages := s.images.filter (fun img => img.preview.isSome)
  if filledImages.length = 0 then .nothingToRender
  else .rendered (renderCells s.images)

/-- Store well-formedness: nine slots, slot ids equal their index, a slot has
a file exactly when it has a preview, every referenced handle was created and
not revoked, and no two slots reference the same handle. This holds for the
initial state and is what the reachable states used below satisfy. -/
def WF (s : GridState) : Prop :=
  s.images.length = 9 ∧
  (∀ i : Fin s.images.length,
    (s.images.get i).id = i.val ∧
    ((s.images.get i).file.isSome = (s.images.get i).preview.isSome) ∧
    ∀ h ∈ ((s.images.get i).preview).toList, h < s.nextHandle ∧ h ∉ s.revoked) ∧
  (slotHandles s).Nodup

instance WF.dec (s : GridState) : Decidable (WF s) := by
  unfold WF
  infer_instance

instance handleLive.dec (s : GridState) (h : Nat) : Decidable (handleLive s h) := by
  unfold handleLive
  infer_instance

/-- Concrete files used for witnesses and counterexamples. -/
def fileA : File := { type := "image/png".toList, width := 2, height := 1 }

def fileB : File := { type := "image/png".toList, width := 1, height := 1 }

def fileC : File := { type := "image/jpeg".toList, width := 3, height := 2 }

def fileT : File := { type := "text/plain".toList, width := 1, height := 1 }

/-- Reachable state: one image inserted into the empty grid
(slot 0 holds `fileA` with preview handle 0). -/
def s1 : GridState := (handleFileSelect initState [fileA] none).1

/-- Reachable state: `s1` followed by an insert targeted at the filled slot 0
(the slot now holds `fileB` with fresh handle 1; handle 0 was never revoked). -/
def s2 : GridState := (handleFileSelect s1 [fileB] (some 0)).1

/-- Reachable state: three images inserted into slots 0,1,2, then slot 1
removed (slots 0 and 2 filled with handles 0 and 2, handle 1 revoked). -/
def s3 : GridState := removeImage (handleFileSelect initState [fileA, fileC, fileB] none).1 1

/-- Reachable state: nine images inserted, every slot filled. -/
def s4 : GridState :=
  (handleFileSelect initState
    [fileA, fileA, fileA, fileA, fileA, fileA, fileA, fileA, fileA] none).1

/-- C10: calling the insert operation with an empty file collection returns
immediately: the state is unchanged and the outcome is the silent no-op, with
no notification of any kind. -/
theorem handleFileSelect_empty_silent (s : GridState) (slotId : Option Nat) :
    handleFileSelect s [] slotId = (s, InsertResult.silentNoop) := rfl

theorem startIndexOf_eq_neg_one_iff (imgs : List ImageSlot) (slotId : Option Nat) :
    startIndexOf imgs slotId = -1 ↔ slotId = none ∧ ∀ sl ∈ imgs, sl.file ≠ none := by
  cases slotId with
  | some i =>
    constructor
    · intro hc
      simp only [startIndexOf] at hc
      omega
    · rintro ⟨hc, -⟩
      exact absurd hc (by simp)
  | none =>
    cases h : imgs.findIdx? (fun img => img.file.isNone) with
    | some i =>
      constructor
      · intro hc
        simp only [startIndexOf, h] at hc
        omega
      · rintro ⟨-, hall⟩
        rw [List.findIdx?_eq_some_iff_getElem] at h
        obtain ⟨hlt, hp, -⟩ := h
        have hnone : imgs[i].file = none := by
          simpa [Option.isNone_iff_eq_none] using hp
        exact absurd hnone (hall _ (imgs.getElem_mem hlt))
    | none =>
      have h2 := List.findIdx?_eq_none_iff.mp h
      constructor
      · intro _
        refine ⟨rfl, fun sl hsl => ?_⟩
        have h3 : sl.file.isSome = true := by
          simpa [Option.isNone_iff_eq_none] using h2 sl hsl
        exact Option.ne_none_iff_isSome.mpr h3
      · intro _
        simp [startIndexOf, h]

theorem handleFileSelect_filterNil (s : GridState) (f : File) (fs : List File)
    (slotId : Option Nat) (hf : (f :: fs).filter isImage = []) :
    handleFileSelect s (f :: fs) slotId = (s, InsertResult.invalidInput) := by
  simp [handleFileSelect, hf]

theorem handleFileSelect_capacity (s : GridState) (f : File) (fs : List File)
    (slotId : Option Nat) (hf : (f :: fs).filter isImage ≠ [])
    (hidx : startIndexOf s.images slotId = -1) :
    handleFileSelect s (f :: fs) slotId = (s, InsertResult.capacityExceeded) := by
  simp [handleFileSelect, hf, hidx]

theorem handleFileSelect_placed (s : GridState) (f : File) (fs : List File)
    (slotId : Option Nat) (hf : (f :: fs).filter isImage ≠ [])
    (hidx : startIndexOf s.images slotId ≠ -1) :
    handleFileSelect s (f :: fs) slotId =
      ({ images := (placeLoop ((f :: fs).filter isImage) s.images s.nextHandle
             (startIndexOf s.images slotId).toNat).1,
         nextHandle := (placeLoop ((f :: fs).filter isImage) s.images s.nextHandle
             (startIndexOf s.images slotId).toNat).2,
         revoked := s.revoked },
       InsertResult.success (min ((f :: fs).filter isImage).length
         (9 - (startIndexOf s.images slotId).toNat))) := by
  simp [handleFileSelect, hf, hidx]

/-- C4: `handleFileSelect` fails with the format-error notification
(`invalidInput`) exactly when the file collection is non-empty and contains
no file whose declared media type begins with "image/", and on that failure
the store state is completely unmodified. -/
theorem hfs_invalid_iff (s : GridState) (files : List File) (slotId : Option Nat) :
    ((handleFileSelect s files slotId).2 = InsertResult.invalidInput ↔
      files ≠ [] ∧ ∀ f ∈ files, isImage f = false) ∧
    ((handleFileSelect s files slotId).2 = InsertResult.invalidInput →
      (handleFileSelect s files slotId).1 = s) := by
  match files with
  | [] => simp [handleFileSelect]
  | f :: fs =>
    by_cases hf : (f :: fs).filter isImage = []
    · rw [handleFileSelect_filterNil s f fs slotId hf]
      refine ⟨⟨fun _ => ⟨List.cons_ne_nil f fs, fun g hg => ?_⟩, fun _ => rfl⟩, fun _ => rfl⟩
      have := List.filter_eq_nil_iff.mp hf g hg
      simpa using this
    · have h2 : (handleFileSelect s (f :: fs) slotId).2 ≠ InsertResult.invalidInput := by
        by_cases hidx : startIndexOf s.images slotId = -1
        · rw [handleFileSelect_capacity s f fs slotId hf hidx]
          simp
        · rw [handleFileSelect_placed s f fs slotId hf hidx]
          simp
      refine ⟨⟨fun hc => absurd hc h2, ?_⟩, fun hc => absurd hc h2⟩
      rintro ⟨-, hall⟩
      exact absurd (List.filter_eq_nil_iff.mpr (fun a ha => by simp [hall a ha])) hf

/-- C5: for a non-empty collection of image-typed files, `handleFileSelect`
fails with the grid-full notification (`capacityExceeded`) exactly when no
slot is empty and no explicit target index was given; on that failure the
store state is completely unmodified (in particular no preview handle is
created). -/
theorem hfs_capacity_iff (s : GridState) (files : List File) (slotId : Option Nat)
    (hne : files ≠ []) (him : ∀ f ∈ files, isImage f = true) :
    ((handleFileSelect s files slotId).2 = InsertResult.capacityExceeded ↔
      slotId = none ∧ ∀ sl ∈ s.images, sl.file ≠ none) ∧
    ((handleFileSelect s files slotId).2 = InsertResult.capacityExceeded →
      (handleFileSelect s files slotId).1 = s) := by
  match files with
  | [] => exact absurd rfl hne
  | f :: fs =>
    have hfilter : (f :: fs).filter isImage = f :: fs := List.filter_eq_self.mpr him
    have hf : (f :: fs).filter isImage ≠ [] := by simp [hfilter]
    by_cases hidx : startIndexOf s.images slotId = -1
    · rw [handleFileSelect_capacity s f fs slotId hf hidx]
      refine ⟨⟨fun _ => (startIndexOf_eq_neg_one_iff s.images slotId).mp hidx, fun _ => rfl⟩,
        fun _ => rfl⟩
    · rw [handleFileSelect_placed s f fs slotId hf hidx]
      refine ⟨⟨fun hc => by simp at hc, fun hc => ?_⟩, fun hc => by simp at hc⟩
      exact absurd ((startIndexOf_eq_neg_one_iff s.images slotId).mpr hc) hidx

theorem placeLoop_length (fs : List File) (imgs : List ImageSlot) (nH t : Nat) :
    (placeLoop fs imgs nH t).1.length = imgs.length := by
  induction fs generalizing imgs nH t with
  | nil => rfl
  | cons f rest ih =>
    simp only [placeLoop]
    split
    · rw [ih]; simp
    · exact ih ..

theorem placeLoop_snd (fs : List File) (imgs : List ImageSlot) (nH t : Nat) :
    (placeLoop fs imgs nH t).2 = nH + min fs.length (9 - t) := by
  induction fs generalizing imgs nH t with
  | nil => simp [placeLoop]
  | cons f rest ih =>
    simp only [placeLoop]
    split
    · rw [ih]; simp only [List.length_cons]; omega
    · rw [ih]; simp only [List.length_cons]; omega

theorem placeLoop_getElem? (fs : List File) (imgs : List ImageSlot) (nH t j : Nat)
    (himgs : imgs.length = 9) :
    (placeLoop fs imgs nH t).1[j]? =
      if t ≤ j ∧ j < t + fs.length ∧ j < 9 then
        (fs[j - t]?).map
          (fun f => { id := j, file := some f, preview := some (nH + (j - t)) })
      else imgs[j]? := by
  induction fs generalizing imgs nH t with
  | nil =>
    simp only [placeLoop, List.length_nil]
    rw [if_neg (by omega)]
  | cons f rest ih =>
    simp only [placeLoop]
    split
    · rename_i ht
      rw [ih _ _ _ (by rw [List.length_set]; exact himgs)]
      by_cases hj : t ≤ j ∧ j < t + (rest.length + 1) ∧ j < 9
      · rw [List.length_cons, if_pos hj]
        by_cases hjt : j = t
        · subst hjt
          rw [if_neg (by omega), List.getElem?_set_self (by omega)]
          simp
        · rw [if_pos ⟨by omega, by omega, hj.2.2⟩]
          have hjt1 : j - t = (j - (t + 1)) + 1 := by omega
          rw [hjt1, List.getElem?_cons_succ]
          cases hg : rest[j - (t + 1)]? with
          | none => simp
          | some g =>
            simp only [Option.map_some']
            have : nH + 1 + (j - (t + 1)) = nH + (j - (t + 1) + 1) := by omega
            rw [this]
      · rw [List.length_cons, if_neg hj, if_neg (by omega),
          List.getElem?_set_ne (by omega)]
    · rename_i ht
      rw [ih _ _ _ himgs, List.length_cons, if_neg (by omega), if_neg (by omega)]

theorem hfs_placement_core (s : GridState) (files : List File) (slotId : Option Nat) (t : Nat)
    (hne : files ≠ []) (him : ∀ f ∈ files, isImage f = true)
    (hstart : startIndexOf s.images slotId = (t : Int)) (hlen : s.images.length = 9) :
    (handleFileSelect s files slotId).2 =
        InsertResult.success (min files.length (9 - t)) ∧
    (handleFileSelect s files slotId).1.images.length = 9 ∧
    (handleFileSelect s files slotId).1.revoked = s.revoked ∧
    (handleFileSelect s files slotId).1.nextHandle =
        s.nextHandle + min files.length (9 - t) ∧
    (∀ j, t ≤ j → j < t + files.length → j < 9 →
        (handleFileSelect s files slotId).1.images[j]? =
          (files[j - t]?).map
            (fun f => { id := j, file := some f, preview := some (s.nextHandle + (j - t)) })) ∧
    (∀ j, ¬(t ≤ j ∧ j < t + files.length ∧ j < 9) →
        (handleFileSelect s files slotId).1.images[j]? = s.images[j]?) := by
  match files with
  | [] => exact absurd rfl hne
  | f :: fs =>
    have hfilter : (f :: fs).filter isImage = f :: fs := List.filter_eq_self.mpr him
    have hf : (f :: fs).filter isImage ≠ [] := by simp [hfilter]
    have hidx : startIndexOf s.images slotId ≠ -1 := by rw [hstart]; omega
    rw [handleFileSelect_placed s f fs slotId hf hidx]
    have htn : (startIndexOf s.images slotId).toNat = t := by rw [hstart]; simp
    rw [hfilter, htn]
    refine ⟨rfl, ?_, rfl, ?_, ?_, ?_⟩
    · rw [placeLoop_length]; exact hlen
    · rw [placeLoop_snd]
    · intro j hj1 hj2 hj3
      rw [placeLoop_getElem? _ _ _ _ _ hlen, if_pos ⟨hj1, hj2, hj3⟩]
    · intro j hj
      rw [placeLoop_getElem? _ _ _ _ _ hlen, if_neg hj]

/-- C6: with an explicit target index `t` in 0..8 and a batch of accepted
image files, `handleFileSelect` places the files sequentially at indices
`t, t+1, ...`, stopping at index 8 inclusive: slots below `t` keep their
previous content (no wrap-around), the slot list keeps length 9 and every
index from `min (t + k) 9` on (in particular every index above 8) is
unchanged, and slot `t + m` receives the m-th file for `t + m ≤ 8`. -/
theorem hfs_target_placement (s : GridState) (files : List File) (t : Nat)
    (hw : WF s) (ht : t ≤ 8) (hne : files ≠ []) (him : ∀ f ∈ files, isImage f = true) :
    (handleFileSelect s files (some t)).1.images.length = 9 ∧
    (∀ j, j < t → (handleFileSelect s files (some t)).1.images[j]? = s.images[j]?) ∧
    (∀ j, t ≤ j → j < min (t + files.length) 9 →
        slotFile (handleFileSelect s files (some t)).1 j = files[j - t]?) ∧
    (∀ j, min (t + files.length) 9 ≤ j →
        (handleFileSelect s files (some t)).1.images[j]? = s.images[j]?) := by
  obtain ⟨hlen, -, -⟩ := hw
  obtain ⟨-, hl9, -, -, hin, hout⟩ :=
    hfs_placement_core s files (some t) t hne him rfl hlen
  refine ⟨hl9, ?_, ?_, ?_⟩
  · intro j hj; exact hout j (by omega)
  · intro j hj1 hj2
    rw [slotFile, hin j hj1 (by omega) (by omega)]
    have hjt : j - t < files.length := by omega
    cases hg : files[j - t]? with
    | none => rw [List.getElem?_eq_none_iff] at hg; omega
    | some g => simp
  · intro j hj; exact hout j (by omega)

/-- C2 (amended): with no target index, insertion starts at the first empty
slot `t` and places the k files at consecutive indices `t, t+1, ...` capped
at index 8 — overwriting any filled slot in that range — reports success with
count `min k (9 - t)`, leaves slots below `t` and beyond the placed range
unchanged, and drops the excess files without error. -/
theorem hfs_firstEmpty_placement (s : GridState) (files : List File)
    (hw : WF s) (hne : files ≠ []) (him : ∀ f ∈ files, isImage f = true)
    (t : Nat) (hfind : s.images.findIdx? (fun img => img.file.isNone) = some t) :
    (handleFileSelect s files none).2 =
        InsertResult.success (min files.length (9 - t)) ∧
    (handleFileSelect s files none).1.images.length = 9 ∧
    (∀ j, j < t → (handleFileSelect s files none).1.images[j]? = s.images[j]?) ∧
    (∀ j, t ≤ j → j < min (t + files.length) 9 →
        slotFile (handleFileSelect s files none).1 j = files[j - t]?) ∧
    (∀ j, min (t + files.length) 9 ≤ j →
        (handleFileSelect s files none).1.images[j]? = s.images[j]?) := by
  obtain ⟨hlen, -, -⟩ := hw
  have hstart : startIndexOf s.images none = (t : Int) := by
    simp [startIndexOf, hfind]
  obtain ⟨hsucc, hl9, -, -, hin, hout⟩ :=
    hfs_placement_core s files none t hne him hstart hlen
  refine ⟨hsucc, hl9, ?_, ?_, ?_⟩
  · intro j hj; exact hout j (by omega)
  · intro j hj1 hj2
    rw [slotFile, hin j hj1 (by omega) (by omega)]
    have hjt : j - t < files.length := by omega
    cases hg : files[j - t]? with
    | none => rw [List.getElem?_eq_none_iff] at hg; omega
    | some g => simp
  · intro j hj; exact hout j (by omega)

theorem set_getElem_self {α : Type} (l : List α) (i : Nat) (a : α) (h : l[i]? = some a) :
    l.set i a = l := by
  obtain ⟨hi, hget⟩ := List.getElem?_eq_some_iff.mp h
  apply List.ext_getElem?
  intro j
  by_cases hj : j = i
  · subst hj
    rw [List.getElem?_set_self hi, h]
  · rw [List.getElem?_set_ne (fun hc => hj hc.symm)]

theorem WF.preview_live (s : GridState) (hw : WF s) (i h0 : Nat)
    (hprev : slotPreview s i = some h0) : h0 < s.nextHandle ∧ h0 ∉ s.revoked := by
  obtain ⟨-, hslots, -⟩ := hw
  unfold slotPreview at hprev
  cases hsi : s.images[i]? with
  | none => rw [hsi] at hprev; cases hprev
  | some sl =>
    rw [hsi] at hprev
    have hprev2 : sl.preview = some h0 := hprev
    obtain ⟨hi, hget⟩ := List.getElem?_eq_some_iff.mp hsi
    have hclause := (hslots ⟨i, hi⟩).2.2
    rw [List.get_eq_getElem, hget, hprev2] at hclause
    exact hclause h0 (by simp)

theorem WF.mem_file_preview (s : GridState) (hw : WF s) (sl : ImageSlot)
    (hsl : sl ∈ s.images) : sl.file.isSome = sl.preview.isSome := by
  obtain ⟨-, hslots, -⟩ := hw
  obtain ⟨n, hn⟩ := List.mem_iff_get.mp hsl
  have := (hslots n).2.1
  rw [hn] at this
  exact this

theorem WF.slotHandles_not_revoked (s : GridState) (hw : WF s) :
    ∀ h0 ∈ slotHandles s, h0 ∉ s.revoked := by
  intro h0 hmem
  obtain ⟨-, hslots, -⟩ := hw
  rw [slotHandles, List.mem_filterMap] at hmem
  obtain ⟨sl, hsl, hp⟩ := hmem
  obtain ⟨n, hn⟩ := List.mem_iff_get.mp hsl
  have hclause := (hslots n).2.2
  rw [hn, hp] at hclause
  exact (hclause h0 (by simp)).2

theorem hfs_revoked_unchanged (s : GridState) (files : List File) (slotId : Option Nat) :
    (handleFileSelect s files slotId).1.revoked = s.revoked := by
  match files with
  | [] => rfl
  | f :: fs =>
    by_cases hf : (f :: fs).filter isImage = []
    · rw [handleFileSelect_filterNil s f fs slotId hf]
    · by_cases hidx : startIndexOf s.images slotId = -1
      · rw [handleFileSelect_capacity s f fs slotId hf hidx]
      · rw [handleFileSelect_placed s f fs slotId hf hidx]

theorem hfs_nextHandle_mono (s : GridState) (files : List File) (slotId : Option Nat) :
    s.nextHandle ≤ (handleFileSelect s files slotId).1.nextHandle := by
  match files with
  | [] => exact le_refl _
  | f :: fs =>
    by_cases hf : (f :: fs).filter isImage = []
    · rw [handleFileSelect_filterNil s f fs slotId hf]
    · by_cases hidx : startIndexOf s.images slotId = -1
      · rw [handleFileSelect_capacity s f fs slotId hf hidx]
      · rw [handleFileSelect_placed s f fs slotId hf hidx]
        simp only [placeLoop_snd]
        omega

/-- C1 (amended): `handleFileSelect` never releases any preview handle (its
revocation log is unchanged), so a pre-existing handle at any slot — in
particular at a slot being overwritten — is not released and remains live
after the call. -/
theorem hfs_never_revokes (s : GridState) (files : List File) (slotId : Option Nat)
    (hw : WF s) (i h0 : Nat) (hprev : slotPreview s i = some h0) :
    (handleFileSelect s files slotId).1.revoked = s.revoked ∧
    handleLive (handleFileSelect s files slotId).1 h0 := by
  have hrev := hfs_revoked_unchanged s files slotId
  have hmono := hfs_nextHandle_mono s files slotId
  obtain ⟨hlt, hnr⟩ := WF.preview_live s hw i h0 hprev
  exact ⟨hrev, by omega, by rw [hrev]; exact hnr⟩

theorem removeImage_idem (s : GridState) (i : Nat) :
    removeImage (removeImage s i) i = removeImage s i := by
  cases hsi : s.images[i]? with
  | none =>
    have h0 : removeImage s i = s := by rw [removeImage, hsi]
    simp only [h0]
  | some sl =>
    obtain ⟨hi, -⟩ := List.getElem?_eq_some_iff.mp hsi
    have h1 : (removeImage s i).images = s.images.set i ⟨i, none, none⟩ := by
      rw [removeImage, hsi]
    have h2 : (removeImage s i).images[i]? = some ⟨i, none, none⟩ := by
      rw [h1, List.getElem?_set_self (by simpa using hi)]
    conv_lhs => rw [removeImage]
    rw [h2]
    simp only [h1, List.set_set]
    conv_rhs => rw [show removeImage s i =
      ⟨(removeImage s i).images, (removeImage s i).nextHandle,
       (removeImage s i).revoked⟩ from rfl]
    rw [h1]

/-- C7: on a well-formed store and a valid index, removing a filled slot
appends exactly one revocation — of that slot's handle, which was not
previously revoked (no double release) — and leaves the slot empty; removing
an empty slot is a complete no-op (no error, no state change, no release);
and removal is idempotent. -/
theorem removeImage_spec (s : GridState) (i : Nat) (hw : WF s) (hi : i < 9) :
    (∀ h0, slotPreview s i = some h0 →
      (removeImage s i).revoked = s.revoked ++ [h0] ∧ h0 ∉ s.revoked ∧
      slotFile (removeImage s i) i = none ∧ slotPreview (removeImage s i) i = none) ∧
    (slotPreview s i = none → removeImage s i = s) ∧
    removeImage (removeImage s i) i = removeImage s i := by
  have hlen : i < s.images.length := by rw [hw.1]; exact hi
  have hset : (removeImage s i).images = s.images.set i ⟨i, none, none⟩ := by
    rw [removeImage, List.getElem?_eq_getElem hlen]
  have hget2 : (removeImage s i).images[i]? = some ⟨i, none, none⟩ := by
    rw [hset, List.getElem?_set_self (by simpa using hlen)]
  refine ⟨?_, ?_, removeImage_idem s i⟩
  · intro h0 hprev
    have hp2 : (s.images[i]).preview = some h0 := by
      have := hprev
      rw [slotPreview, List.getElem?_eq_getElem hlen] at this
      exact this
    refine ⟨?_, (WF.preview_live s hw i h0 hprev).2, ?_, ?_⟩
    · have hrm : (removeImage s i).revoked =
          match (s.images[i]).preview with
          | some h1 => s.revoked ++ [h1]
          | none => s.revoked := by
        rw [removeImage, List.getElem?_eq_getElem hlen]
      rw [hrm, hp2]
    · rw [slotFile, hget2]; rfl
    · rw [slotPreview, hget2]; rfl
  · intro hprev
    have hp2 : (s.images[i]).preview = none := by
      rw [slotPreview, List.getElem?_eq_getElem hlen] at hprev
      exact hprev
    have hid : (s.images[i]).id = i := by
      have := (hw.2.1 ⟨i, hlen⟩).1
      rwa [List.get_eq_getElem] at this
    have hfile : (s.images[i]).file = none := by
      have := (hw.2.1 ⟨i, hlen⟩).2.1
      rw [List.get_eq_getElem, hp2] at this
      simpa [Option.isSome_iff_ne_none] using this
    have hslot : s.images[i] = ⟨i, none, none⟩ := by
      cases hsl : s.images[i]
      simp only [hsl] at hid hfile hp2
      simp [hid, hfile, hp2]
    have hrm : removeImage s i =
        { images := s.images.set i ⟨i, none, none⟩, nextHandle := s.nextHandle,
          revoked := match (s.images[i]).preview with
            | some h1 => s.revoked ++ [h1]
            | none => s.revoked } := by
      rw [removeImage, List.getElem?_eq_getElem hlen]
    rw [hrm, hp2, ← hslot,
      set_getElem_self s.images i _ (List.getElem?_eq_getElem hlen)]

/-- C8 (amended): `resetGrid` always returns the store to the nine initial
empty slots and emits the grid-reset notification, and it releases exactly
once each handle referenced by a slot at the time of the call. (Handles
leaked earlier by replacement inserts are live but unreferenced, and are not
released.) -/
theorem resetGrid_spec (s : GridState) (hw : WF s) :
    (resetGrid s).1.images = initImages ∧
    (resetGrid s).1.revoked = s.revoked ++ slotHandles s ∧
    (∀ h0 ∈ slotHandles s, ((resetGrid s).1.revoked).count h0 = 1) ∧
    (resetGrid s).2 = ResetResult.gridReset := by
  refine ⟨rfl, rfl, ?_, rfl⟩
  intro h0 hmem
  have hnr : h0 ∉ s.revoked := WF.slotHandles_not_revoked s hw h0 hmem
  have hnd : (slotHandles s).Nodup := hw.2.2
  show ((s.revoked ++ slotHandles s).count h0) = 1
  rw [List.count_append, List.count_eq_zero.mpr hnr,
    List.count_eq_one_of_mem hnd hmem]

/-- C9: `downloadGrid` aborts with the "no images" notice — performing none
of the canvas work, which only the `rendered` outcome carries — exactly when
none of the nine slots has content. -/
theorem renderGrid_nothing_iff (s : GridState) (hw : WF s) :
    s.images.length = 9 ∧
    (renderGrid s = RenderResult.nothingToRender ↔ ∀ sl ∈ s.images, sl.file = none) := by
  refine ⟨hw.1, ?_⟩
  simp only [renderGrid]
  by_cases hfil : (s.images.filter (fun img => img.preview.isSome)).length = 0
  · rw [if_pos hfil]
    simp only [List.length_eq_zero, List.filter_eq_nil_iff] at hfil
    refine iff_of_true rfl ?_
    intro sl hsl
    have h1 := hfil sl hsl
    have h2 := WF.mem_file_preview s hw sl hsl
    simp only [Bool.not_eq_true] at h1
    rw [h1] at h2
    simpa [Option.isSome_iff_ne_none] using h2
  · rw [if_neg hfil]
    refine iff_of_false (by simp) ?_
    intro hall
    apply hfil
    simp only [List.length_eq_zero, List.filter_eq_nil_iff]
    intro sl hsl
    have h2 := WF.mem_file_preview s hw sl hsl
    rw [hall sl hsl] at h2
    simp [← h2]

theorem renderCellsAux_mem (imgs : List ImageSlot) (k j : Nat) (sl : ImageSlot) (f : File)
    (hj : imgs[j]? = some sl) (hp : sl.preview.isSome = true) (hf : sl.file = some f) :
    drawCell (k + j) f ∈ renderCellsAux k imgs := by
  induction imgs generalizing k j with
  | nil => cases hj
  | cons a rest ih =>
    cases j with
    | zero =>
      have ha : a = sl := by simpa using hj
      subst ha
      obtain ⟨p, hp2⟩ := Option.isSome_iff_exists.mp hp
      simp only [renderCellsAux, hp2, hf]
      simp
    | succ j2 =>
      have hj2 : rest[j2]? = some sl := by simpa using hj
      have hmem := ih (k + 1) j2 hj2
      have harith : k + 1 + j2 = k + (j2 + 1) := by omega
      rw [harith] at hmem
      simp only [renderCellsAux]
      cases hap : a.preview with
      | none => exact hmem
      | some p =>
        cases haf : a.file with
        | none => exact hmem
        | some g => exact List.mem_cons_of_mem _ hmem

theorem renderGrid_rendered (s : GridState) (i : Nat) (sl : ImageSlot)
    (hi : s.images[i]? = some sl) (hp : sl.preview.isSome = true) :
    renderGrid s = RenderResult.rendered (renderCells s.images) := by
  simp only [renderGrid]
  rw [if_neg]
  intro hc
  rw [List.length_eq_zero, List.filter_eq_nil_iff] at hc
  obtain ⟨hlt, hget⟩ := List.getElem?_eq_some_iff.mp hi
  have := hc sl (hget ▸ List.getElem_mem hlt)
  simp [hp] at this

/-- C3: every filled slot rendered by `downloadGrid` receives the cover-fit
transform: for aspect `width/height > 1` the draw height is 300, the draw
width is `300 × aspect` and the horizontal offset is `-(drawWidth - 300)/2`
(vertical offset 0); for aspect `≤ 1` the symmetric formulas; the draw is
clipped to the slot's 300×300 cell rectangle; and a 2:1 source yields draw
height 300, width 600, horizontal offset -150. -/
theorem renderGrid_coverFit (s : GridState) (i : Nat) (f : File)
    (hw : WF s) (hslot : slotFile s i = some f) (hh : 0 < f.height) :
    (∃ cells, renderGrid s = RenderResult.rendered cells ∧ drawCell i f ∈ cells) ∧
    (f.width / f.height > 1 →
      (drawCell i f).drawHeight = 300 ∧
      (drawCell i f).drawWidth = 300 * (f.width / f.height) ∧
      (drawCell i f).offsetX = -((drawCell i f).drawWidth - 300) / 2 ∧
      (drawCell i f).offsetY = 0) ∧
    (f.width / f.height ≤ 1 →
      (drawCell i f).drawWidth = 300 ∧
      (drawCell i f).drawHeight = 300 / (f.width / f.height) ∧
      (drawCell i f).offsetY = -((drawCell i f).drawHeight - 300) / 2 ∧
      (drawCell i f).offsetX = 0) ∧
    ((drawCell i f).clipX = (drawCell i f).x ∧ (drawCell i f).clipY = (drawCell i f).y ∧
      (drawCell i f).clipW = 300 ∧ (drawCell i f).clipH = 300) ∧
    (f.width = 2 * f.height →
      (drawCell i f).drawHeight = 300 ∧ (drawCell i f).drawWidth = 600 ∧
      (drawCell i f).offsetX = -150) := by
  have hmemp : ∃ sl, s.images[i]? = some sl ∧ sl.preview.isSome = true ∧
      sl.file = some f := by
    rw [slotFile] at hslot
    cases hsi : s.images[i]? with
    | none => rw [hsi] at hslot; cases hslot
    | some sl =>
      rw [hsi] at hslot
      have hf : sl.file = some f := hslot
      refine ⟨sl, rfl, ?_, hf⟩
      obtain ⟨hlt, hget⟩ := List.getElem?_eq_some_iff.mp hsi
      have := WF.mem_file_preview s hw sl (hget ▸ List.getElem_mem hlt)
      rw [hf] at this
      exact this.symm
  obtain ⟨sl, hsi, hp, hf⟩ := hmemp
  constructor
  · refine ⟨renderCells s.images, renderGrid_rendered s i sl hsi hp, ?_⟩
    have := renderCellsAux_mem s.images 0 i sl f hsi hp hf
    rwa [Nat.zero_add] at this
  refine ⟨?_, ?_, ?_, ?_⟩
  · intro hgt
    simp only [drawCell, cellSize, gap, if_pos hgt]
    norm_num
  · intro hle
    have hnotgt : ¬(f.width / f.height > 1) := by exact not_lt.mpr hle
    simp only [drawCell, cellSize, gap, if_neg hnotgt]
    norm_num
  · by_cases hgt : f.width / f.height > 1
    · simp only [drawCell, cellSize, gap, if_pos hgt]
      exact ⟨trivial, trivial, trivial, trivial⟩
    · simp only [drawCell, cellSize, gap, if_neg hgt]
      exact ⟨trivial, trivial, trivial, trivial⟩
  · intro h21
    have hasp : f.width / f.height = 2 := by
      rw [h21, mul_div_assoc, div_self (ne_of_gt hh), mul_one]
    have hgt : f.width / f.height > 1 := by rw [hasp]; norm_num
    simp only [drawCell, cellSize, gap, if_pos hgt, hasp]
    norm_num

/-- C1 counterexample: starting from the initial store, insert one image
(slot 0 receives preview handle 0), then insert another image targeted at
slot 0. The code creates handle 1 for slot 0 but never revokes handle 0: the
revocation log stays empty and both handles created for slot 0 are live
after the replacement, contradicting "the slot's pre-existing preview handle
is released before (or immediately after) the new handle is created". -/
theorem hfs_replacement_leak_ctex :
    slotPreview s1 0 = some 0 ∧
    slotPreview s2 0 = some 1 ∧
    s2.revoked = [] ∧
    handleLive s2 0 ∧ handleLive s2 1 := by decide

/-- C2 counterexample: in state `s3`, slot 1 and slot 3 are the first two
empty slots and slot 2 is filled with `fileB`. Inserting two images with no
target does NOT fill the first two empty slots leaving filled slots
unchanged: it writes slots 1 and 2 — overwriting the filled slot 2 — and
leaves the second empty slot 3 empty. -/
theorem hfs_firstEmpty_overwrite_ctex :
    slotFile s3 1 = none ∧ slotFile s3 2 = some fileB ∧ slotFile s3 3 = none ∧
    slotFile (handleFileSelect s3 [fileC, fileC] none).1 2 = some fileC ∧
    slotFile (handleFileSelect s3 [fileC, fileC] none).1 3 = none ∧
    fileC ≠ fileB := by decide

/-- C8 counterexample: in state `s2`, handle 0 (leaked by the earlier
replacement insert) is live, but `resetGrid` revokes only handle 1 — the one
referenced by slot 0 — so a handle that was live at the time of the call is
never released. -/
theorem resetGrid_leak_ctex :
    handleLive s2 0 ∧
    (resetGrid s2).1.images = initImages ∧
    (resetGrid s2).1.revoked = [1] ∧
    0 ∉ (resetGrid s2).1.revoked := by decide

theorem hfs_invalid_iff_witness :
    (handleFileSelect initState [fileT] none).2 = InsertResult.invalidInput ∧
    (handleFileSelect initState [fileT] none).1 = initState :=
  have h := hfs_invalid_iff initState [fileT] none
  have h2 : (handleFileSelect initState [fileT] none).2 = InsertResult.invalidInput :=
    h.1.mpr ⟨by decide, by decide⟩
  ⟨h2, h.2 h2⟩

theorem hfs_capacity_iff_witness :
    ([fileB] ≠ [] ∧ ∀ f ∈ [fileB], isImage f = true) ∧
    (handleFileSelect s4 [fileB] none).2 = InsertResult.capacityExceeded ∧
    (handleFileSelect s4 [fileB] none).1 = s4 :=
  have h := hfs_capacity_iff s4 [fileB] none (by decide) (by decide)
  have h2 : (handleFileSelect s4 [fileB] none).2 = InsertResult.capacityExceeded :=
    h.1.mpr ⟨rfl, by decide⟩
  ⟨⟨by decide, by decide⟩, h2, h.2 h2⟩

theorem hfs_target_placement_witness :
    WF s1 ∧ (4 : Nat) ≤ 8 ∧ [fileB] ≠ [] ∧ (∀ f ∈ [fileB], isImage f = true) ∧
    (handleFileSelect s1 [fileB] (some 4)).1.images.length = 9 ∧
    (handleFileSelect s1 [fileB] (some 4)).1.images[2]? = s1.images[2]? ∧
    slotFile (handleFileSelect s1 [fileB] (some 4)).1 4 = [fileB][4 - 4]? ∧
    (handleFileSelect s1 [fileB] (some 4)).1.images[5]? = s1.images[5]? :=
  have h := hfs_target_placement s1 [fileB] 4 (by decide) (by decide) (by decide) (by decide)
  ⟨by decide, by decide, by decide, by decide, h.1, h.2.1 2 (by decide),
   h.2.2.1 4 (by decide) (by decide), h.2.2.2 5 (by decide)⟩

theorem hfs_firstEmpty_placement_witness :
    WF s1 ∧ [fileB, fileC] ≠ [] ∧ (∀ f ∈ [fileB, fileC], isImage f = true) ∧
    s1.images.findIdx? (fun img => img.file.isNone) = some 1 ∧
    (handleFileSelect s1 [fileB, fileC] none).2 =
      InsertResult.success (min [fileB, fileC].length (9 - 1)) ∧
    (handleFileSelect s1 [fileB, fileC] none).1.images[0]? = s1.images[0]? ∧
    slotFile (handleFileSelect s1 [fileB, fileC] none).1 1 = [fileB, fileC][1 - 1]? ∧
    slotFile (handleFileSelect s1 [fileB, fileC] none).1 2 = [fileB, fileC][2 - 1]? ∧
    (handleFileSelect s1 [fileB, fileC] none).1.images[3]? = s1.images[3]? :=
  have h := hfs_firstEmpty_placement s1 [fileB, fileC] (by decide) (by decide)
    (by decide) 1 (by decide)
  ⟨by decide, by decide, by decide, by decide, h.1, h.2.2.1 0 (by decide),
   h.2.2.2.1 1 (by decide) (by decide), h.2.2.2.1 2 (by decide) (by decide),
   h.2.2.2.2 3 (by decide)⟩

theorem hfs_never_revokes_witness :
    WF s1 ∧ slotPreview s1 0 = some 0 ∧
    ((handleFileSelect s1 [fileB] (some 0)).1.revoked = s1.revoked ∧
     handleLive (handleFileSelect s1 [fileB] (some 0)).1 0) :=
  ⟨by decide, by decide, hfs_never_revokes s1 [fileB] (some 0) (by decide) 0 0 (by decide)⟩

theorem removeImage_spec_witness :
    WF s3 ∧ (0 : Nat) < 9 ∧ slotPreview s3 0 = some 0 ∧
    ((removeImage s3 0).revoked = s3.revoked ++ [0] ∧ (0 : Nat) ∉ s3.revoked ∧
     slotFile (removeImage s3 0) 0 = none ∧ slotPreview (removeImage s3 0) 0 = none) ∧
    removeImage (removeImage s3 0) 0 = removeImage s3 0 :=
  have h := removeImage_spec s3 0 (by decide) (by decide)
  ⟨by decide, by decide, by decide, h.1 0 (by decide), h.2.2⟩

theorem resetGrid_spec_witness :
    WF s3 ∧
    (resetGrid s3).1.images = initImages ∧
    (resetGrid s3).1.revoked = s3.revoked ++ slotHandles s3 ∧
    (∀ h0 ∈ slotHandles s3, ((resetGrid s3).1.revoked).count h0 = 1) ∧
    (resetGrid s3).2 = ResetResult.gridReset :=
  have h := resetGrid_spec s3 (by decide)
  ⟨by decide, h.1, h.2.1, h.2.2.1, h.2.2.2⟩

theorem renderGrid_nothing_iff_witness :
    WF initState ∧ initState.images.length = 9 ∧
    (renderGrid initState = RenderResult.nothingToRender ↔
      ∀ sl ∈ initState.images, sl.file = none) :=
  have h := renderGrid_nothing_iff initState (by decide)
  ⟨by decide, h.1, h.2⟩

theorem renderGrid_coverFit_witness :
    WF s1 ∧ slotFile s1 0 = some fileA ∧ (0 : ℚ) < fileA.height ∧
    (drawCell 0 fileA).drawHeight = 300 ∧ (drawCell 0 fileA).drawWidth = 600 ∧
    (drawCell 0 fileA).offsetX = -150 :=
  have h := renderGrid_coverFit s1 0 fileA (by decide) (by decide) (by norm_num [fileA])
  have h21 := h.2.2.2.2 (by norm_num [fileA])
  ⟨by decide, by decide, by norm_num [fileA], h21.1, h21.2.1, h21.2.2⟩
